import Mathlib

/-
  Verification of src/src/penalize_uninteresting_values.c (COCO benchmark
  framework): a decorator that wraps an optimization problem and adds a
  quadratic out-of-bounds penalty to every objective component.

  Reals (C doubles) are modelled as rationals so that every definition is
  executable and every concrete evaluation is decidable.  C arrays are
  modelled as lists indexed with getD (a read through a pointer at index i);
  the indexed for-loops of the source are modelled as folds over
  List.range, a set at index i modelling the write y[i] = ... .
-/

namespace Coco

/-- The slice of struct coco_problem_s (coco.h) that this transform reads:
dimension, objective count, the two bound vectors and the evaluation
function pointer. -/
structure coco_problem_t where
  number_of_variables : Nat
  number_of_objectives : Nat
  smallest_values_of_interest : List ℚ
  largest_values_of_interest : List ℚ
  evaluate_function : List ℚ → List ℚ

/-- One iteration of the penalty loop of _puv_evaluate_function
(lines 16-25): c1 = x[i] - upper_bounds[i], c2 = lower_bounds[i] - x[i];
if c1 > 0 add c1*c1, else if c2 > 0 add c2*c2, else leave penalty alone. -/
def _puv_penalty_step (lower_bounds upper_bounds x : List ℚ)
    (penalty : ℚ) (i : Nat) : ℚ :=
  let c1 := x.getD i 0 - upper_bounds.getD i 0
  let c2 := lower_bounds.getD i 0 - x.getD i 0
  if c1 > 0 then penalty + c1 * c1
  else if c2 > 0 then penalty + c2 * c2
  else penalty

/-- The penalty accumulated by the loop `for (i = 0; i < n; ++i)` of
_puv_evaluate_function, starting from penalty = 0.0. -/
def _puv_penalty (lower_bounds upper_bounds x : List ℚ) (n : Nat) : ℚ :=
  (List.range n).foldl (_puv_penalty_step lower_bounds upper_bounds x) 0

/-- The output loop of _puv_evaluate_function (lines 29-31):
`for (i = 0; i < m; ++i) y[i] += t` with t = data->factor * penalty. -/
def _puv_add_penalty (t : ℚ) (m : Nat) (y : List ℚ) : List ℚ :=
  (List.range m).foldl (fun y i => y.set i (y.getD i 0 + t)) y

/-- _puv_evaluate_function (lines 10-32): read the bound vectors from
self, accumulate the penalty over self->number_of_variables coordinates,
delegate to the inner problem, then add data->factor * penalty to each of
the self->number_of_objectives components of y.  data->factor and the
inner problem (reached through coco_get_transform_data and
coco_get_transform_inner_problem in the C) are passed explicitly. -/
def _puv_evaluate_function (self : coco_problem_t) (data_factor : ℚ)
    (inner_problem : coco_problem_t) (x : List ℚ) : List ℚ :=
  let lower_bounds := self.smallest_values_of_interest
  let upper_bounds := self.largest_values_of_interest
  let penalty := _puv_penalty lower_bounds upper_bounds x
    self.number_of_variables
  let y := inner_problem.evaluate_function x
  _puv_add_penalty (data_factor * penalty) self.number_of_objectives y

/-- Closed form of one iteration of the penalty loop: the contribution of
coordinate i, written exactly as the branch structure of lines 17-24 reads
(c1*c1 when c1 > 0, else c2*c2 when c2 > 0, else 0). -/
def puv_coordinate_penalty (lower_i upper_i x_i : ℚ) : ℚ :=
  if x_i - upper_i > 0 then (x_i - upper_i) * (x_i - upper_i)
  else if lower_i - x_i > 0 then (lower_i - x_i) * (lower_i - x_i)
  else 0

/-- The signed distance by which x_i lies beyond the nearest violated
bound: positive overshoot above the upper bound, positive undershoot
below the lower bound, and 0 inside the box. -/
def boundViolation (lower_i upper_i x_i : ℚ) : ℚ :=
  if x_i - upper_i > 0 then x_i - upper_i
  else if lower_i - x_i > 0 then lower_i - x_i
  else 0

/-- Modelled from the spec: coco_allocate_transformed_problem lives in
coco_problem.c, which is not part of this repository snapshot.  Per the
spec (sections 3 and 6) the transformed problem inherits
number_of_variables, number_of_objectives and both bound vectors
unchanged from the inner problem; the evaluation function is overridden
afterwards by the caller. -/
def coco_allocate_transformed_problem (inner_problem : coco_problem_t) :
    coco_problem_t :=
  { number_of_variables := inner_problem.number_of_variables
    number_of_objectives := inner_problem.number_of_objectives
    smallest_values_of_interest := inner_problem.smallest_values_of_interest
    largest_values_of_interest := inner_problem.largest_values_of_interest
    evaluate_function := inner_problem.evaluate_function }

/-- penalize_uninteresting_values (lines 40-51): allocate the transformed
problem from the inner one, store factor in the transform data, and set
evaluate_function to _puv_evaluate_function.  The evaluation closure reads
only the metadata fields of self, which the override of
evaluate_function leaves untouched, so passing the pre-override record is
faithful. -/
def penalize_uninteresting_values (inner_problem : coco_problem_t)
    (factor : ℚ) : coco_problem_t :=
  let self := coco_allocate_transformed_problem inner_problem
  { self with evaluate_function := fun x =>
      _puv_evaluate_function self factor inner_problem x }

/-- The penalty loop with the assert of line 19 made explicit: every
iteration checks lower_bounds[i] < upper_bounds[i] and aborts the whole
computation (none) when the check fails, the way a failing C assert
terminates the process. -/
def _puv_penalty_checked (lower_bounds upper_bounds x : List ℚ)
    (n : Nat) : Option ℚ :=
  (List.range n).foldl
    (fun p? i => p?.bind fun p =>
      if lower_bounds.getD i 0 < upper_bounds.getD i 0 then
        some (_puv_penalty_step lower_bounds upper_bounds x p i)
      else none)
    (some 0)

/-- _puv_evaluate_function with its bounds assert explicit: none models a
process killed by the assert, some a normal return. -/
def _puv_evaluate_function_checked (self : coco_problem_t)
    (data_factor : ℚ) (inner_problem : coco_problem_t) (x : List ℚ) :
    Option (List ℚ) :=
  (_puv_penalty_checked self.smallest_values_of_interest
      self.largest_values_of_interest x self.number_of_variables).map
    fun penalty =>
      _puv_add_penalty (data_factor * penalty) self.number_of_objectives
        (inner_problem.evaluate_function x)

/-- penalize_uninteresting_values with the assert of line 43 explicit:
the inner problem pointer may be NULL (none), in which case the assert
fires and no problem is ever returned. -/
def penalize_uninteresting_values_checked
    (inner_problem : Option coco_problem_t) (factor : ℚ) :
    Option coco_problem_t :=
  match inner_problem with
  | none => none
  | some p => some (penalize_uninteresting_values p factor)

/-- State-passing rendering of _puv_evaluate_function over the two
buffers of the C signature, const double *x and double *y: the C body
stores only into y (the penalty and loop variables are locals), and
coco_evaluate_function takes x as const and fills y.  The pair returned
is the final contents of both buffers. -/
def _puv_evaluate_function_buffers (self : coco_problem_t)
    (data_factor : ℚ) (inner_problem : coco_problem_t)
    (x y : List ℚ) : List ℚ × List ℚ :=
  let penalty := _puv_penalty self.smallest_values_of_interest
    self.largest_values_of_interest x self.number_of_variables
  let y := inner_problem.evaluate_function x
  let y := _puv_add_penalty (data_factor * penalty)
    self.number_of_objectives y
  (x, y)

/-- The inner problem of the concrete scenario in the spec: n = 2, m = 1,
bounds [-1,-1] and [1,1], every evaluation yielding [5]. -/
def scenario_inner : coco_problem_t :=
  { number_of_variables := 2
    number_of_objectives := 1
    smallest_values_of_interest := [-1, -1]
    largest_values_of_interest := [1, 1]
    evaluate_function := fun _ => [5] }

/-- An inner problem with no variables at all, used to witness the empty
penalty loop. -/
def nullary_inner : coco_problem_t :=
  { number_of_variables := 0
    number_of_objectives := 1
    smallest_values_of_interest := []
    largest_values_of_interest := []
    evaluate_function := fun _ => [3] }

/-- Folding addition of a pointwise term over List.range is the finite sum. -/
theorem foldl_add_eq_sum (f : Nat → ℚ) :
    ∀ (n : Nat) (a : ℚ),
      (List.range n).foldl (fun p i => p + f i) a =
        a + ∑ i ∈ Finset.range n, f i := by
  intro n
  induction n with
  | zero => intro a; simp
  | succ n ih =>
    intro a
    rw [List.range_succ, List.foldl_append, Finset.sum_range_succ, ih]
    simp [add_assoc]

/-- One penalty-loop iteration adds exactly the per-coordinate
contribution. -/
theorem _puv_penalty_step_eq (lower_bounds upper_bounds x : List ℚ)
    (p : ℚ) (i : Nat) :
    _puv_penalty_step lower_bounds upper_bounds x p i =
      p + puv_coordinate_penalty (lower_bounds.getD i 0)
        (upper_bounds.getD i 0) (x.getD i 0) := by
  simp only [_puv_penalty_step, puv_coordinate_penalty]
  split_ifs <;> simp

/-- The accumulated penalty is the sum over coordinates of the
per-coordinate contributions. -/
theorem _puv_penalty_eq_sum (lower_bounds upper_bounds x : List ℚ)
    (n : Nat) :
    _puv_penalty lower_bounds upper_bounds x n =
      ∑ i ∈ Finset.range n,
        puv_coordinate_penalty (lower_bounds.getD i 0)
          (upper_bounds.getD i 0) (x.getD i 0) := by
  unfold _puv_penalty
  have hstep : _puv_penalty_step lower_bounds upper_bounds x =
      fun p i => p + puv_coordinate_penalty (lower_bounds.getD i 0)
        (upper_bounds.getD i 0) (x.getD i 0) :=
    funext fun p => funext fun i =>
      _puv_penalty_step_eq lower_bounds upper_bounds x p i
  rw [hstep, foldl_add_eq_sum]
  simp

/-- The in-place write loop never changes the length of y. -/
theorem foldl_set_length (t : ℚ) (l : List Nat) :
    ∀ y : List ℚ,
      (l.foldl (fun y i => y.set i (y.getD i 0 + t)) y).length = y.length := by
  induction l with
  | nil => intro y; rfl
  | cons a l ih => intro y; rw [List.foldl_cons, ih, List.length_set]

/-- Entry j of the output loop: entries below m gain t, the rest are
untouched (a write past the end of the list is a no-op). -/
theorem _puv_add_penalty_getElem? (t : ℚ) (m : Nat) (y : List ℚ) :
    ∀ j : Nat,
      (_puv_add_penalty t m y)[j]? =
        if j < m then (y[j]?).map (fun v => v + t) else y[j]? := by
  induction m with
  | zero => intro j; simp [_puv_add_penalty]
  | succ m ih =>
    intro j
    have hstep : _puv_add_penalty t (m + 1) y =
        (_puv_add_penalty t m y).set m
          ((_puv_add_penalty t m y).getD m 0 + t) := by
      unfold _puv_add_penalty
      rw [List.range_succ, List.foldl_append]
      rfl
    have hlen : (_puv_add_penalty t m y).length = y.length :=
      foldl_set_length t (List.range m) y
    have hgd : (_puv_add_penalty t m y).getD m 0 = y.getD m 0 := by
      rw [List.getD_eq_getElem?_getD, List.getD_eq_getElem?_getD, ih m]
      simp
    rw [hstep, List.getElem?_set]
    by_cases hjm : m = j
    · subst hjm
      rw [if_pos rfl, if_pos (by omega : m < m + 1)]
      by_cases hlt : m < y.length
      · rw [if_pos (by omega)]
        have hy : y[m]? = some (y.get ⟨m, hlt⟩) :=
          List.getElem?_eq_getElem hlt
        rw [hgd, List.getD_eq_getElem?_getD, hy]
        simp
      · rw [if_neg (by omega)]
        have hy : y[m]? = none := List.getElem?_eq_none (by omega)
        rw [hy]
        rfl
    · rw [if_neg hjm, ih j]
      have hiff : (j < m + 1) ↔ (j < m) := by omega
      simp only [hiff]

/-- When the loop bound equals the length of y (the inner problem filled
all m objective components), the output loop is a pointwise map. -/
theorem _puv_add_penalty_eq_map (t : ℚ) (y : List ℚ) :
    _puv_add_penalty t y.length y = y.map (fun v => v + t) := by
  apply List.ext_getElem?
  intro j
  rw [_puv_add_penalty_getElem?, List.getElem?_map]
  by_cases h : j < y.length
  · simp [h]
  · have hy : y[j]? = none := List.getElem?_eq_none (Nat.le_of_not_lt h)
    simp [h, hy]

/-- Adding the scalar 0 to every entry is the identity, whatever m is. -/
theorem _puv_add_penalty_zero (m : Nat) (y : List ℚ) :
    _puv_add_penalty 0 m y = y := by
  apply List.ext_getElem?
  intro j
  rw [_puv_add_penalty_getElem?]
  by_cases h : j < m
  · cases hy : y[j]? <;> simp [h, hy]
  · simp [h]

/-- Unfolding of the transformed evaluation: penalty from the inherited
bounds, delegation to the inner problem, then the output loop. -/
theorem penalize_uninteresting_values_evaluate
    (inner_problem : coco_problem_t) (factor : ℚ) (x : List ℚ) :
    (penalize_uninteresting_values inner_problem factor).evaluate_function
        x =
      _puv_add_penalty
        (factor * _puv_penalty inner_problem.smallest_values_of_interest
          inner_problem.largest_values_of_interest x
          inner_problem.number_of_variables)
        inner_problem.number_of_objectives
        (inner_problem.evaluate_function x) := rfl

/-- Component j of the transformed evaluation, for j below the objective
count, assuming the inner problem fills all m components. -/
theorem penalize_uninteresting_values_getD
    (inner_problem : coco_problem_t) (factor : ℚ) (x : List ℚ) (j : Nat)
    (hy : (inner_problem.evaluate_function x).length =
      inner_problem.number_of_objectives)
    (hj : j < inner_problem.number_of_objectives) :
    ((penalize_uninteresting_values inner_problem
        factor).evaluate_function x).getD j 0 =
      (inner_problem.evaluate_function x).getD j 0 +
        factor * _puv_penalty inner_problem.smallest_values_of_interest
          inner_problem.largest_values_of_interest x
          inner_problem.number_of_variables := by
  rw [penalize_uninteresting_values_evaluate,
    List.getD_eq_getElem?_getD, _puv_add_penalty_getElem?, if_pos hj]
  have hjy : j < (inner_problem.evaluate_function x).length := by omega
  have hsome : (inner_problem.evaluate_function x)[j]? =
      some ((inner_problem.evaluate_function x).get ⟨j, hjy⟩) :=
    List.getElem?_eq_getElem hjy
  rw [hsome, List.getD_eq_getElem?_getD, hsome]
  rfl

/-- When every coordinate other than i is inside the box, the penalty is
exactly the contribution of coordinate i. -/
theorem _puv_penalty_single_out (lower_bounds upper_bounds z : List ℚ)
    (n i : Nat) (hi : i < n)
    (hin : ∀ j, j < n → j ≠ i →
      lower_bounds.getD j 0 ≤ z.getD j 0 ∧
      z.getD j 0 ≤ upper_bounds.getD j 0) :
    _puv_penalty lower_bounds upper_bounds z n =
      puv_coordinate_penalty (lower_bounds.getD i 0)
        (upper_bounds.getD i 0) (z.getD i 0) := by
  rw [_puv_penalty_eq_sum]
  apply Finset.sum_eq_single_of_mem i (Finset.mem_range.mpr hi)
  intro j hj hji
  rcases hin j (Finset.mem_range.mp hj) hji with ⟨h1, h2⟩
  unfold puv_coordinate_penalty
  rw [if_neg (by linarith), if_neg (by linarith)]

/-- The per-coordinate contribution is the square of the signed violation
distance. -/
theorem puv_coordinate_penalty_eq_sq (l u v : ℚ) :
    puv_coordinate_penalty l u v =
      boundViolation l u v * boundViolation l u v := by
  unfold puv_coordinate_penalty boundViolation
  split_ifs <;> simp

/-- Above a violated upper bound the violation distance is the overshoot. -/
theorem boundViolation_upper (l u v : ℚ) (hlu : l < u) (hv : u ≤ v) :
    boundViolation l u v = v - u := by
  unfold boundViolation
  split_ifs <;> linarith

/-- Below a violated lower bound the violation distance is the undershoot. -/
theorem boundViolation_lower (l u v : ℚ) (hlu : l < u) (hv : v ≤ l) :
    boundViolation l u v = l - v := by
  unfold boundViolation
  split_ifs <;> linarith

/-- Under well-formed bounds the checked penalty loop never hits its
assert and agrees with the plain loop. -/
theorem _puv_penalty_checked_eq (lower_bounds upper_bounds x : List ℚ)
    (n : Nat)
    (hb : ∀ i, i < n →
      lower_bounds.getD i 0 < upper_bounds.getD i 0) :
    _puv_penalty_checked lower_bounds upper_bounds x n =
      some (_puv_penalty lower_bounds upper_bounds x n) := by
  induction n with
  | zero => rfl
  | succ n ih =>
    have hstepc : _puv_penalty_checked lower_bounds upper_bounds x
        (n + 1) =
        (_puv_penalty_checked lower_bounds upper_bounds x n).bind
          (fun p =>
            if lower_bounds.getD n 0 < upper_bounds.getD n 0 then
              some (_puv_penalty_step lower_bounds upper_bounds x p n)
            else none) := by
      unfold _puv_penalty_checked
      rw [List.range_succ, List.foldl_append]
      rfl
    have hstepu : _puv_penalty lower_bounds upper_bounds x (n + 1) =
        _puv_penalty_step lower_bounds upper_bounds x
          (_puv_penalty lower_bounds upper_bounds x n) n := by
      unfold _puv_penalty
      rw [List.range_succ, List.foldl_append]
      rfl
    rw [hstepc, ih (fun i hi => hb i (by omega)), hstepu,
      Option.some_bind, if_pos (hb n (by omega))]

/-- C1: for every input x of length number_of_variables, every objective
component j of the transformed evaluation equals the inner evaluation's
component j plus factor times the penalty, the penalty being the sum over
coordinates of c1*c1 when c1 = x[i]-upper[i] > 0, else c2*c2 when
c2 = lower[i]-x[i] > 0, else 0; under the bounds invariant the two
branches exclude each other on every coordinate, and the same scalar
factor * penalty is added to every component. -/
theorem C1_evaluate_adds_uniform_penalty
    (inner_problem : coco_problem_t) (factor : ℚ) (x : List ℚ)
    (hx : x.length = inner_problem.number_of_variables)
    (hy : (inner_problem.evaluate_function x).length =
      inner_problem.number_of_objectives)
    (hb : ∀ i, i < inner_problem.number_of_variables →
      inner_problem.smallest_values_of_interest.getD i 0 <
        inner_problem.largest_values_of_interest.getD i 0) :
    (∀ j, j < inner_problem.number_of_objectives →
      ((penalize_uninteresting_values inner_problem
          factor).evaluate_function x).getD j 0 =
        (inner_problem.evaluate_function x).getD j 0 +
          factor * ∑ i ∈ Finset.range inner_problem.number_of_variables,
            puv_coordinate_penalty
              (inner_problem.smallest_values_of_interest.getD i 0)
              (inner_problem.largest_values_of_interest.getD i 0)
              (x.getD i 0)) ∧
    (∀ i, i < inner_problem.number_of_variables →
      ¬(x.getD i 0 - inner_problem.largest_values_of_interest.getD i 0 >
          0 ∧
        inner_problem.smallest_values_of_interest.getD i 0 - x.getD i 0 >
          0)) := by
  constructor
  · intro j hj
    rw [penalize_uninteresting_values_getD inner_problem factor x j hy hj,
      _puv_penalty_eq_sum]
  · intro i hi hc
    rcases hc with ⟨h1, h2⟩
    have := hb i hi
    linarith

/-- Witness for C1 at the spec's concrete scenario, objective 0. -/
theorem C1_evaluate_adds_uniform_penalty_witness :
    ((penalize_uninteresting_values scenario_inner 2).evaluate_function
        [2, 0]).getD 0 0 =
      (scenario_inner.evaluate_function [2, 0]).getD 0 0 +
        2 * ∑ i ∈ Finset.range scenario_inner.number_of_variables,
          puv_coordinate_penalty
            (scenario_inner.smallest_values_of_interest.getD i 0)
            (scenario_inner.largest_values_of_interest.getD i 0)
            (List.getD [2, 0] i 0) :=
  (C1_evaluate_adds_uniform_penalty scenario_inner 2 [2, 0] rfl rfl
    (by
      intro i hi
      simp only [scenario_inner] at hi ⊢
      interval_cases i <;> norm_num)).1 0 (by norm_num [scenario_inner])

/-- C2: whenever every coordinate of x lies inside the box, the
transformed evaluation equals the inner evaluation exactly. -/
theorem C2_in_bounds_transparency
    (inner_problem : coco_problem_t) (factor : ℚ) (x : List ℚ)
    (hin : ∀ i, i < inner_problem.number_of_variables →
      inner_problem.smallest_values_of_interest.getD i 0 ≤ x.getD i 0 ∧
      x.getD i 0 ≤ inner_problem.largest_values_of_interest.getD i 0) :
    (penalize_uninteresting_values inner_problem
        factor).evaluate_function x =
      inner_problem.evaluate_function x := by
  rw [penalize_uninteresting_values_evaluate]
  have hpen : _puv_penalty inner_problem.smallest_values_of_interest
      inner_problem.largest_values_of_interest x
      inner_problem.number_of_variables = 0 := by
    rw [_puv_penalty_eq_sum]
    apply Finset.sum_eq_zero
    intro i hi
    rcases hin i (Finset.mem_range.mp hi) with ⟨h1, h2⟩
    unfold puv_coordinate_penalty
    rw [if_neg (by linarith), if_neg (by linarith)]
  rw [hpen, mul_zero, _puv_add_penalty_zero]

/-- Witness for C2 at the in-bounds point [0, 0]. -/
theorem C2_in_bounds_transparency_witness :
    (penalize_uninteresting_values scenario_inner 2).evaluate_function
        [0, 0] =
      scenario_inner.evaluate_function [0, 0] :=
  C2_in_bounds_transparency scenario_inner 2 [0, 0] (by
    intro i hi
    simp only [scenario_inner] at hi ⊢
    interval_cases i <;> norm_num)

/-- C3: the transform exposes the inner problem's dimension, objective
count and bound vectors unchanged. -/
theorem C3_metadata_pass_through (inner_problem : coco_problem_t)
    (factor : ℚ) :
    (penalize_uninteresting_values inner_problem
        factor).number_of_variables = inner_problem.number_of_variables ∧
    (penalize_uninteresting_values inner_problem
        factor).number_of_objectives =
      inner_problem.number_of_objectives ∧
    (penalize_uninteresting_values inner_problem
        factor).smallest_values_of_interest =
      inner_problem.smallest_values_of_interest ∧
    (penalize_uninteresting_values inner_problem
        factor).largest_values_of_interest =
      inner_problem.largest_values_of_interest :=
  ⟨rfl, rfl, rfl, rfl⟩

/-- C4: with a non-null inner problem the constructor's assert passes and
a problem is returned, and with well-formed bounds the per-iteration
assert of the evaluation loop passes and the checked evaluation returns
the plain result; no error value ever reaches the caller. -/
theorem C4_assertions_fatal_preconditions
    (inner_problem : Option coco_problem_t) (p : coco_problem_t)
    (factor : ℚ) (x : List ℚ) (hnn : inner_problem = some p)
    (hb : ∀ i, i < p.number_of_variables →
      p.smallest_values_of_interest.getD i 0 <
        p.largest_values_of_interest.getD i 0) :
    penalize_uninteresting_values_checked inner_problem factor =
      some (penalize_uninteresting_values p factor) ∧
    _puv_evaluate_function_checked (coco_allocate_transformed_problem p)
        factor p x =
      some (_puv_evaluate_function (coco_allocate_transformed_problem p)
        factor p x) := by
  subst hnn
  refine ⟨rfl, ?_⟩
  have hb2 : ∀ i,
      i < (coco_allocate_transformed_problem p).number_of_variables →
      (coco_allocate_transformed_problem
          p).smallest_values_of_interest.getD i 0 <
        (coco_allocate_transformed_problem
          p).largest_values_of_interest.getD i 0 := hb
  unfold _puv_evaluate_function_checked _puv_evaluate_function
  rw [_puv_penalty_checked_eq _ _ _ _ hb2]
  rfl

/-- Witness for C4 at the spec's concrete scenario. -/
theorem C4_assertions_fatal_preconditions_witness :
    penalize_uninteresting_values_checked (some scenario_inner) 2 =
      some (penalize_uninteresting_values scenario_inner 2) ∧
    _puv_evaluate_function_checked
        (coco_allocate_transformed_problem scenario_inner) 2
        scenario_inner [2, 0] =
      some (_puv_evaluate_function
        (coco_allocate_transformed_problem scenario_inner) 2
        scenario_inner [2, 0]) :=
  C4_assertions_fatal_preconditions (some scenario_inner) scenario_inner
    2 [2, 0] rfl (by
      intro i hi
      simp only [scenario_inner] at hi ⊢
      interval_cases i <;> norm_num)

/-- C5: with the same inner result y, the transform built with factor k
yields y[j] + k * penalty on every objective j while the transform built
with factor 1 yields y[j] + penalty. -/
theorem C5_factor_scaling (inner_problem : coco_problem_t) (k : ℚ)
    (x : List ℚ)
    (hy : (inner_problem.evaluate_function x).length =
      inner_problem.number_of_objectives) :
    ∀ j, j < inner_problem.number_of_objectives →
      ((penalize_uninteresting_values inner_problem
          k).evaluate_function x).getD j 0 =
        (inner_problem.evaluate_function x).getD j 0 +
          k * _puv_penalty inner_problem.smallest_values_of_interest
            inner_problem.largest_values_of_interest x
            inner_problem.number_of_variables ∧
      ((penalize_uninteresting_values inner_problem
          1).evaluate_function x).getD j 0 =
        (inner_problem.evaluate_function x).getD j 0 +
          _puv_penalty inner_problem.smallest_values_of_interest
            inner_problem.largest_values_of_interest x
            inner_problem.number_of_variables := by
  intro j hj
  refine ⟨penalize_uninteresting_values_getD inner_problem k x j hy hj,
    ?_⟩
  rw [penalize_uninteresting_values_getD inner_problem 1 x j hy hj,
    one_mul]

/-- Witness for C5 at the spec's concrete scenario with k = 2. -/
theorem C5_factor_scaling_witness :
    ((penalize_uninteresting_values scenario_inner 2).evaluate_function
        [2, 0]).getD 0 0 =
      (scenario_inner.evaluate_function [2, 0]).getD 0 0 +
        2 * _puv_penalty scenario_inner.smallest_values_of_interest
          scenario_inner.largest_values_of_interest [2, 0]
          scenario_inner.number_of_variables ∧
    ((penalize_uninteresting_values scenario_inner 1).evaluate_function
        [2, 0]).getD 0 0 =
      (scenario_inner.evaluate_function [2, 0]).getD 0 0 +
        _puv_penalty scenario_inner.smallest_values_of_interest
          scenario_inner.largest_values_of_interest [2, 0]
          scenario_inner.number_of_variables :=
  C5_factor_scaling scenario_inner 2 [2, 0] rfl 0
    (by norm_num [scenario_inner])

/-- C6: with every coordinate other than i held in-bounds, the penalty
equals the square of the signed distance beyond the nearest violated
bound at coordinate i, and moving x[i] further outside the box (upward
beyond the upper bound, or downward beyond the lower bound) never
decreases it. -/
theorem C6_penalty_monotone_quadratic
    (lower_bounds upper_bounds x : List ℚ) (n i : Nat) (hi : i < n)
    (hx : x.length = n)
    (hb : lower_bounds.getD i 0 < upper_bounds.getD i 0)
    (hin : ∀ j, j < n → j ≠ i →
      lower_bounds.getD j 0 ≤ x.getD j 0 ∧
      x.getD j 0 ≤ upper_bounds.getD j 0) :
    (_puv_penalty lower_bounds upper_bounds x n =
      boundViolation (lower_bounds.getD i 0) (upper_bounds.getD i 0)
          (x.getD i 0) *
        boundViolation (lower_bounds.getD i 0) (upper_bounds.getD i 0)
          (x.getD i 0)) ∧
    (∀ a b : ℚ, upper_bounds.getD i 0 ≤ a → a ≤ b →
      _puv_penalty lower_bounds upper_bounds (x.set i a) n ≤
        _puv_penalty lower_bounds upper_bounds (x.set i b) n) ∧
    (∀ a b : ℚ, b ≤ lower_bounds.getD i 0 → a ≤ b →
      _puv_penalty lower_bounds upper_bounds (x.set i b) n ≤
        _puv_penalty lower_bounds upper_bounds (x.set i a) n) := by
  have hset_ne : ∀ (v : ℚ) (j : Nat), j ≠ i →
      (x.set i v).getD j 0 = x.getD j 0 := by
    intro v j hj
    rw [List.getD_eq_getElem?_getD, List.getD_eq_getElem?_getD,
      List.getElem?_set, if_neg (fun h => hj h.symm)]
  have hset_eq : ∀ v : ℚ, (x.set i v).getD i 0 = v := by
    intro v
    rw [List.getD_eq_getElem?_getD, List.getElem?_set, if_pos rfl,
      if_pos (by omega)]
    rfl
  have hpen : ∀ v : ℚ,
      _puv_penalty lower_bounds upper_bounds (x.set i v) n =
        puv_coordinate_penalty (lower_bounds.getD i 0)
          (upper_bounds.getD i 0) v := by
    intro v
    rw [_puv_penalty_single_out lower_bounds upper_bounds (x.set i v) n i
        hi (fun j hj hji => by
          rw [hset_ne v j hji]
          exact hin j hj hji),
      hset_eq v]
  refine ⟨?_, ?_, ?_⟩
  · rw [_puv_penalty_single_out lower_bounds upper_bounds x n i hi hin,
      puv_coordinate_penalty_eq_sq]
  · intro a b ha hab
    rw [hpen a, hpen b, puv_coordinate_penalty_eq_sq,
      puv_coordinate_penalty_eq_sq,
      boundViolation_upper _ _ _ hb ha,
      boundViolation_upper _ _ _ hb (le_trans ha hab)]
    exact mul_self_le_mul_self (by linarith) (by linarith)
  · intro a b hbl hab
    rw [hpen a, hpen b, puv_coordinate_penalty_eq_sq,
      puv_coordinate_penalty_eq_sq,
      boundViolation_lower _ _ _ hb hbl,
      boundViolation_lower _ _ _ hb (le_trans hab hbl)]
    exact mul_self_le_mul_self (by linarith) (by linarith)

/-- Witness for C6: coordinate 0 of [2, 0] against bounds [-1,-1], [1,1]. -/
theorem C6_penalty_monotone_quadratic_witness :
    _puv_penalty [-1, -1] [1, 1] [2, 0] 2 =
      boundViolation (List.getD [-1, -1] 0 0) (List.getD [1, 1] 0 0)
          (List.getD [2, 0] 0 0) *
        boundViolation (List.getD [-1, -1] 0 0) (List.getD [1, 1] 0 0)
          (List.getD [2, 0] 0 0) :=
  (C6_penalty_monotone_quadratic [-1, -1] [1, 1] [2, 0] 2 0
    (by omega) rfl (by norm_num)
    (by
      intro j hj hji
      interval_cases j
      · exact absurd rfl hji
      · norm_num)).1

/-- C7: the spec's concrete scenario: bounds [-1,-1] and [1,1], inner
value [5], factor 2, input [2, 0]; the penalty is 1 and the transformed
evaluation returns [7]. -/
theorem C7_concrete_scenario :
    (penalize_uninteresting_values scenario_inner 2).evaluate_function
        [2, 0] = [7] ∧
    _puv_penalty scenario_inner.smallest_values_of_interest
      scenario_inner.largest_values_of_interest [2, 0]
      scenario_inner.number_of_variables = 1 := by
  have hpen : _puv_penalty scenario_inner.smallest_values_of_interest
      scenario_inner.largest_values_of_interest [2, 0]
      scenario_inner.number_of_variables = 1 := by
    rw [_puv_penalty_eq_sum]
    simp only [scenario_inner]
    rw [Finset.sum_range_succ, Finset.sum_range_succ,
      Finset.sum_range_zero]
    norm_num [puv_coordinate_penalty]
  refine ⟨?_, hpen⟩
  rw [penalize_uninteresting_values_evaluate, hpen]
  norm_num [_puv_add_penalty, List.range_succ, scenario_inner]

/-- C8: the transform's own bound vectors, filled at construction, equal
the inner problem's, so the penalty computed from the wrapper's fields is
the penalty computed from the inner bounds. -/
theorem C8_penalty_from_inherited_bounds
    (inner_problem : coco_problem_t) (factor : ℚ) (x : List ℚ) :
    (penalize_uninteresting_values inner_problem
        factor).smallest_values_of_interest =
      inner_problem.smallest_values_of_interest ∧
    (penalize_uninteresting_values inner_problem
        factor).largest_values_of_interest =
      inner_problem.largest_values_of_interest ∧
    _puv_penalty
        (penalize_uninteresting_values inner_problem
          factor).smallest_values_of_interest
        (penalize_uninteresting_values inner_problem
          factor).largest_values_of_interest x
        (penalize_uninteresting_values inner_problem
          factor).number_of_variables =
      _puv_penalty inner_problem.smallest_values_of_interest
        inner_problem.largest_values_of_interest x
        inner_problem.number_of_variables :=
  ⟨rfl, rfl, rfl⟩

/-- C9: in the buffer-passing rendering of the evaluation, the input
buffer x comes back unchanged and only the output buffer is written,
carrying exactly the functional result. -/
theorem C9_input_buffer_unchanged (self inner_problem : coco_problem_t)
    (data_factor : ℚ) (x y : List ℚ) :
    (_puv_evaluate_function_buffers self data_factor inner_problem
        x y).1 = x ∧
    (_puv_evaluate_function_buffers self data_factor inner_problem
        x y).2 =
      _puv_evaluate_function self data_factor inner_problem x :=
  ⟨rfl, rfl⟩

/-- C10: with zero variables the penalty loop runs no iteration, the
penalty stays 0, and the transformed evaluation equals the inner one for
every x and factor. -/
theorem C10_zero_variables_transparent
    (inner_problem : coco_problem_t) (factor : ℚ) (x : List ℚ)
    (h0 : inner_problem.number_of_variables = 0) :
    _puv_penalty inner_problem.smallest_values_of_interest
      inner_problem.largest_values_of_interest x
      inner_problem.number_of_variables = 0 ∧
    (penalize_uninteresting_values inner_problem
        factor).evaluate_function x =
      inner_problem.evaluate_function x := by
  have hpen : _puv_penalty inner_problem.smallest_values_of_interest
      inner_problem.largest_values_of_interest x
      inner_problem.number_of_variables = 0 := by
    rw [h0]
    rfl
  refine ⟨hpen, ?_⟩
  rw [penalize_uninteresting_values_evaluate, hpen, mul_zero,
    _puv_add_penalty_zero]

/-- Witness for C10 on a problem with no variables. -/
theorem C10_zero_variables_transparent_witness :
    _puv_penalty nullary_inner.smallest_values_of_interest
      nullary_inner.largest_values_of_interest [4]
      nullary_inner.number_of_variables = 0 ∧
    (penalize_uninteresting_values nullary_inner 5).evaluate_function
        [4] =
      nullary_inner.evaluate_function [4] :=
  C10_zero_variables_transparent nullary_inner 5 [4] rfl

end Coco
